import Mathlib

/-!
Shallow embedding of the PCD point-cloud decoder
`ReconstructionWindow._read_pcd` from `src/GUI/reconstruction_window.py`.

The input file is modelled at the point where the header loop has already
split it: `hdr` is the list of retained header lines (each line as its
whitespace-delimited tokens), `dataLine` is the first line whose lowercased
text begins with "data" (also as tokens), `rows` is the remaining payload
viewed as text lines (tokens per line, used only in ascii mode), and
`stream` is the remaining payload viewed as bytes (used only in the binary
modes).  External decompression libraries (zlib, gzip, lz4.frame, raw
deflate) are abstracted as a `CodecSet` of partial byte-transformers, and
Python builtins (`int`, `float`, `str.lower`, truthiness, floor division,
slicing, `file.read`) are modelled by `py*` functions below.  Python floats
are idealised as `PyVal`: an exact rational, NaN, or a signed infinity;
byte reinterpretation follows IEEE 754 binary32/binary64 exactly.
-/

/-- Terminal decode outcomes.  The first seven correspond to the ValueErrors
raised explicitly in `_read_pcd`; the remaining constructors model untyped
Python/numpy exceptions that escape the function (IndexError from list
indexing, KeyError from the size-dictionary lookups, ValueError from
`int()` and from negative dtype shapes, the numpy duplicate-field-name
rejection, and the `np.frombuffer` buffer-size mismatch). -/
inductive Err
  | incompleteLayout
  | unsupportedFieldType
  | truncatedPayload
  | decompressionFailed
  | emptyPointCloud
  | noBinaryData
  | unsupportedDataType
  | invalidCompressedHeader
  | indexError
  | keyError
  | valueError
  | dupFieldName
  | bufferSizeError
  | zeroDivisionError
deriving DecidableEq

/-- Idealised Python float value: an exact rational, NaN, or an infinity. -/
inductive PyVal
  | fin (q : ℚ)
  | nan
  | inf
  | ninf
deriving DecidableEq

/-- Model of `np.isfinite` / `math.isfinite`. -/
def PyVal.isFinite : PyVal → Bool
  | .fin _ => true
  | _ => false

/-- A decoded point, the per-row output of the extractor. -/
abbrev Pt := PyVal × PyVal × PyVal

instance instDecEqExcept {ε α : Type} [DecidableEq ε] [DecidableEq α] :
    DecidableEq (Except ε α) := fun x y =>
  match x, y with
  | .ok a, .ok b => decidable_of_iff (a = b) (by simp)
  | .error a, .error b => decidable_of_iff (a = b) (by simp)
  | .ok _, .error _ => isFalse (by simp)
  | .error _, .ok _ => isFalse (by simp)

/-- Error-propagating bind on `Except Err`, used to keep the embedding's
reduction behaviour explicit. -/
def exBind {α β : Type} (x : Except Err α) (f : α → Except Err β) : Except Err β :=
  match x with
  | .error e => .error e
  | .ok a => f a

@[simp] theorem exBind_ok {α β : Type} (a : α) (f : α → Except Err β) :
    exBind (.ok a) f = f a := rfl

@[simp] theorem exBind_error {α β : Type} (e : Err) (f : α → Except Err β) :
    exBind (.error e) f = .error e := rfl

/-! ### Python builtin models -/

/-- Model of `str.lower` (ASCII case folding, as used on directive tokens). -/
def pyLower (s : String) : String := String.mk (s.data.map Char.toLower)

/-- Model of `str.upper`, used on the TYPE tokens. -/
def pyUpper (s : String) : String := String.mk (s.data.map Char.toUpper)

/-- Model of `str.startswith`. -/
def pyStartsWith (s pre : String) : Bool := pre.data.isPrefixOf s.data

/-- Numeric value of a digit list (most significant first). -/
def digitsVal (cs : List Char) : Nat := cs.foldl (fun a c => 10 * a + (c.toNat - 48)) 0

/-- True when every character is an ASCII digit. -/
def allDigits (cs : List Char) : Bool := cs.all (·.isDigit)

/-- Model of Python `int(token)` for base-10 tokens without whitespace:
an optional sign followed by at least one digit; `none` models the
ValueError raised on anything else. -/
def pyInt (s : String) : Option Int :=
  match s.data with
  | [] => none
  | '+' :: t => if t ≠ [] && allDigits t then some (digitsVal t : Int) else none
  | '-' :: t => if t ≠ [] && allDigits t then some (-(digitsVal t : Int)) else none
  | cs => if allDigits cs then some (digitsVal cs : Int) else none

/-- Rational `s * 2 ^ e` built with `mkRat` so it kernel-reduces. -/
def scaled2 (s : Int) (e : Int) : ℚ :=
  if 0 ≤ e then mkRat (s * (2 : Int) ^ e.toNat) 1 else mkRat s ((2 : Nat) ^ (-e).toNat)

/-- Rational `s / den * 10 ^ e`, used for parsed decimal literals. -/
def scaled10 (s : Int) (den : Nat) (e : Int) : ℚ :=
  if 0 ≤ e then mkRat (s * (10 : Int) ^ e.toNat) den else mkRat s (den * (10 : Nat) ^ (-e).toNat)

/-- Exponent part of a decimal float literal: optional sign, then digits. -/
def parseExp (cs : List Char) : Option Int :=
  match cs with
  | '+' :: t => if t ≠ [] && allDigits t then some (digitsVal t : Int) else none
  | '-' :: t => if t ≠ [] && allDigits t then some (-(digitsVal t : Int)) else none
  | t => if t ≠ [] && allDigits t then some (digitsVal t : Int) else none

/-- Decimal float literal after the sign: `digits [. digits] [(e|E) exp]`,
with at least one digit before the exponent marker. -/
def parseDec (cs : List Char) : Option ℚ :=
  let ip := cs.takeWhile (·.isDigit)
  let rest1 := cs.dropWhile (·.isDigit)
  match rest1 with
  | [] => if ip = [] then none else some (mkRat (digitsVal ip : Int) 1)
  | '.' :: rest2 =>
    let fp := rest2.takeWhile (·.isDigit)
    let rest3 := rest2.dropWhile (·.isDigit)
    if ip = [] && fp = [] then none
    else
      let m : Int := (digitsVal (ip ++ fp) : Int)
      match rest3 with
      | [] => some (mkRat m ((10 : Nat) ^ fp.length))
      | c :: rest4 =>
        if c = 'e' || c = 'E' then
          (parseExp rest4).map (fun ex => scaled10 m ((10 : Nat) ^ fp.length) ex)
        else none
  | c :: rest2 =>
    if (c = 'e' || c = 'E') && ip ≠ [] then
      (parseExp rest2).map (fun ex => scaled10 (digitsVal ip : Int) 1 ex)
    else none

/-- Model of Python `float(token)` on whitespace-free tokens: optional sign,
then `nan`, `inf`/`infinity` (case-insensitive), or a decimal literal;
`none` models the ValueError on anything else. -/
def pyFloat (s : String) : Option PyVal :=
  match s.data with
  | [] => none
  | cs =>
    let neg : Bool := match cs with
      | '-' :: _ => true
      | _ => false
    let body := match cs with
      | '+' :: t => t
      | '-' :: t => t
      | t => t
    let low := body.map Char.toLower
    if low = ['n', 'a', 'n'] then some .nan
    else if low = ['i', 'n', 'f'] || low = ['i', 'n', 'f', 'i', 'n', 'i', 't', 'y'] then
      some (if neg then .ninf else .inf)
    else
      match parseDec body with
      | some q => some (.fin (if neg then -q else q))
      | none => none

/-- Python truthiness of a directive lookup result: `None` and the empty
token list are falsy. -/
def pyTruthyL (o : Option (List String)) : Bool :=
  match o with
  | none => false
  | some [] => false
  | some (_ :: _) => true

/-- Python `a or b` on directive lookup results (`None`/empty list falsy). -/
def pyOrL (a b : Option (List String)) : Option (List String) :=
  if pyTruthyL a then a else b

/-- Token list of a directive value list, with `None` as the empty list
(only read behind a truthiness check, mirroring the source). -/
def optVals (o : Option (List String)) : List String := o.getD []

/-- Python floor division on ints; division by zero raises. -/
def pyFloorDiv (a b : Int) : Except Err Int :=
  if b = 0 then .error .zeroDivisionError else .ok (Int.fdiv a b)

/-- Model of `fh.read(n)` on the remaining byte stream: a negative count
reads everything, otherwise at most `n` bytes. -/
def pyRead (n : Int) (stream : List Nat) : List Nat :=
  if n < 0 then stream else stream.take n.toNat

/-- Model of the slice `l[:n]` (a negative bound counts from the end). -/
def pySliceTo (l : List Nat) (n : Int) : List Nat :=
  if 0 ≤ n then l.take n.toNat else l.take ((l.length : Int) + n).toNat

/-! ### Header reader -/

/-- Model of the `_get(prefix)` helper: scan the retained header lines in
order and return the token tail of the first line whose lowercased text
starts with the prefix.  With whitespace-tokenised lines this is a prefix
test on the first token. -/
def getDirective (hdr : List (List String)) (pre : String) : Option (List String) :=
  hdr.findSome? (fun ln =>
    match ln with
    | [] => none
    | t :: rest => if pyStartsWith (pyLower t) pre then some rest else none)

/-- The `fields` lookup: `_get("fields") or _get("field")`. -/
def fieldsOf (hdr : List (List String)) : Option (List String) :=
  pyOrL (getDirective hdr "fields") (getDirective hdr "field")

/-- Data mode selected from the `DATA` line: the lowercased second token,
defaulting to `"binary"` when the line has no second token. -/
def dataTypeOf (dataLine : List String) : String :=
  match dataLine with
  | _ :: t :: _ => pyLower t
  | _ => "binary"

/-- The `width`/`height` sub-expression `int(tok[0]) if tok else 0` inside
the try block: falsy lookups give 0, a present head token must parse. -/
def whVal (o : Option (List String)) : Option Int :=
  match o with
  | some (t :: _) => pyInt t
  | some [] => some 0
  | none => some 0

/-- Point-count resolution, lines 135-147 of the source: a truthy POINTS
lookup is parsed (parse failure leaves `none`, with no further fallback);
otherwise WIDTH*HEIGHT is used when both parse and are nonzero. -/
def resolveNumPoints (points? width? height? : Option (List String)) : Option Int :=
  if pyTruthyL points? then
    match points? with
    | some (t :: _) => pyInt t
    | _ => none
  else
    match whVal width?, whVal height? with
    | some w, some h => if w ≠ 0 && h ≠ 0 then some (w * h) else none
    | _, _ => none

/-! ### ASCII payload decoder -/

/-- Model of `list.index(t)` returning the first index of `t`, `none` when
absent (the `ValueError` sites handle absence). -/
def findIdxFrom (t : String) : List String → Option Nat
  | [] => none
  | s :: rest => if s = t then some 0 else (findIdxFrom t rest).map Nat.succ

/-- Column selection for ascii mode, lines 152-158: each coordinate falls
back to its positional column independently. -/
def asciiSelect (fields? : Option (List String)) : Nat × Nat × Nat :=
  let fl : List String :=
    if pyTruthyL fields? then (optVals fields?).map pyLower else []
  ((findIdxFrom "x" fl).getD 0,
   (findIdxFrom "y" fl).getD 1,
   (findIdxFrom "z" fl).getD 2)

/-- Whether an ascii payload line is kept: non-empty, not a comment, enough
tokens, and the three selected tokens parse as floats. -/
def asciiKeep (xi yi zi : Nat) (parts : List String) : Bool :=
  match parts with
  | [] => false
  | t :: _ =>
    if pyStartsWith t "#" then false
    else if parts.length ≤ max xi (max yi zi) then false
    else ((pyFloat (parts.getD xi "")).isSome && (pyFloat (parts.getD yi "")).isSome)
          && (pyFloat (parts.getD zi "")).isSome

/-- Point extracted from a kept ascii line. -/
def asciiVal (xi yi zi : Nat) (parts : List String) : Pt :=
  ((pyFloat (parts.getD xi "")).getD .nan,
   (pyFloat (parts.getD yi "")).getD .nan,
   (pyFloat (parts.getD zi "")).getD .nan)

/-- ASCII payload decoder, lines 149-175: skip blank, comment, short and
unparseable lines, keep the rest in order; zero kept rows is fatal. -/
def asciiDecode (fields? : Option (List String)) (rows : List (List String)) :
    Except Err (List Pt) :=
  match asciiSelect fields? with
  | (xi, yi, zi) =>
    let pts := rows.filterMap (fun parts =>
      if asciiKeep xi yi zi parts then some (asciiVal xi yi zi parts) else none)
    if pts = [] then .error .emptyPointCloud else .ok pts

/-! ### Compressed-frame stage -/

/-- The linked decompression libraries, abstracted: each maps a compressed
buffer to `some` decompressed bytes or fails; `lz4` is only present when
the optional library imported successfully. -/
structure CodecSet where
  zlib : List Nat → Option (List Nat)
  gzip : List Nat → Option (List Nat)
  lz4 : Option (List Nat → Option (List Nat))
  rawDeflate : List Nat → Option (List Nat)

/-- Little-endian value of a byte list. -/
def leNat (bs : List Nat) : Nat := bs.foldr (fun b acc => b + 256 * acc) 0

/-- Declared compressed size: first 4 bytes of the 8-byte frame header. -/
def compSizeOf (stream : List Nat) : Nat := leNat (stream.take 4)

/-- Declared uncompressed size: bytes 4-8 of the frame header. -/
def uncompSizeOf (stream : List Nat) : Nat := leNat ((stream.drop 4).take 4)

/-- The compressed payload bytes that `fh.read(comp_size)` returns. -/
def compBytesOf (stream : List Nat) : List Nat :=
  (stream.drop 8).take (compSizeOf stream)

/-- The ordered codec fallback chain: zlib, gzip, lz4-frame when linked,
then raw deflate. -/
def codecChain (c : CodecSet) : List (List Nat → Option (List Nat)) :=
  [c.zlib, c.gzip] ++ (match c.lz4 with | some f => [f] | none => []) ++ [c.rawDeflate]

/-- First codec in a chain that accepts the buffer. -/
def firstSome (fs : List (List Nat → Option (List Nat))) (b : List Nat) : Option (List Nat) :=
  match fs with
  | [] => none
  | f :: rest =>
    match f b with
    | some d => some d
    | none => firstSome rest b

/-- Compressed-payload stage, lines 179-210: read the 8-byte frame header,
read exactly `comp_size` bytes, then try the codecs in order.  Returns the
decompressed bytes, the declared uncompressed size, and the rest of the
stream. -/
def compressedStage (c : CodecSet) (stream : List Nat) :
    Except Err (List Nat × Nat × List Nat) :=
  if (stream.take 8).length ≠ 8 then .error .invalidCompressedHeader
  else if (compBytesOf stream).length ≠ compSizeOf stream then .error .truncatedPayload
  else
    match firstSome (codecChain c) (compBytesOf stream) with
    | some d => .ok (d, uncompSizeOf stream, stream.drop (8 + compSizeOf stream))
    | none => .error .decompressionFailed

/-! ### Binary layout and payload decoder -/

/-- Concrete numpy base type selected for a field. -/
inductive Base
  | f4
  | f8
  | sint (w : Nat)
  | uint (w : Nat)
deriving DecidableEq

/-- Byte width of a base type. -/
def baseWidth : Base → Nat
  | .f4 => 4
  | .f8 => 8
  | .sint w => w
  | .uint w => w

/-- Type mapping, lines 244-251 of the source: `F` uses `<f4` exactly for
size 4 and `<f8` for every other size; `I`/`U` use a dictionary keyed by
sizes 1, 2, 4, 8 (a missing key raises KeyError); any other type character
raises the "Unsupported PCD field type" ValueError. -/
def mapBase (ftype : String) (fsize : Int) : Except Err Base :=
  if ftype = "F" then .ok (if fsize = 4 then .f4 else .f8)
  else if ftype = "I" then
    if fsize = 1 || fsize = 2 || fsize = 4 || fsize = 8 then .ok (.sint fsize.toNat)
    else .error .keyError
  else if ftype = "U" then
    if fsize = 1 || fsize = 2 || fsize = 4 || fsize = 8 then .ok (.uint fsize.toNat)
    else .error .keyError
  else .error .unsupportedFieldType

/-- One resolved dtype record field: name, base type, repeat count. -/
structure DtypeElem where
  name : String
  base : Base
  cnt : Nat
deriving DecidableEq

/-- Total byte width of a field (base width times repeat count). -/
def elemWidth (e : DtypeElem) : Nat := baseWidth e.base * e.cnt

/-- Packed record size of the dtype (numpy itemsize, no padding). -/
def itemsize (dt : List DtypeElem) : Nat := (dt.map elemWidth).sum

/-- The `[int(x) for x in toks]` comprehension; a bad token raises the
untyped `int()` ValueError. -/
def intsOf (toks : List String) : Except Err (List Int) :=
  match toks with
  | [] => .ok []
  | t :: rest =>
    match pyInt t with
    | none => .error .valueError
    | some v => exBind (intsOf rest) (fun vs => .ok (v :: vs))

/-- The COUNT resolution: parse the tokens when the lookup is truthy, else
default to one per field. -/
def countsOf (count? : Option (List String)) (nFields : Nat) : Except Err (List Int) :=
  if pyTruthyL count? then intsOf (optVals count?) else .ok (List.replicate nFields 1)

/-- The stride sum `sum(sizes[i] * counts[i] for i in range(len(sizes)))`;
`counts[i]` raises IndexError when COUNT is shorter than SIZE. -/
def bppSum : List Int → List Int → Except Err Int
  | [], _ => .ok 0
  | _ :: _, [] => .error .indexError
  | s :: ss, c :: cs => exBind (bppSum ss cs) (fun rest => .ok (s * c + rest))

/-- Point-count inference, lines 219-228: an already-resolved count wins;
else a nonzero declared uncompressed size is divided by the stride; else
the remaining stream length is divided by the stride (clamped at 0). -/
def numPointsOf (np0 : Option Int) (uncomp? : Option Nat) (bpp : Int) (streamLen : Nat) :
    Except Err Int :=
  match np0 with
  | some n => .ok n
  | none =>
    match uncomp? with
    | some u =>
      if u ≠ 0 then pyFloorDiv (u : Int) bpp
      else exBind (pyFloorDiv (streamLen : Int) bpp) (fun d => .ok (max 0 d))
    | none => exBind (pyFloorDiv (streamLen : Int) bpp) (fun d => .ok (max 0 d))

/-- Truncation recovery, lines 232-237: when fewer bytes than expected are
available, keep `avail = len(raw) // stride` whole records, failing with
NoBinaryData when that is zero. -/
def truncAdjust (raw0 : List Nat) (expected bpp : Int) : Except Err (List Nat) :=
  if (raw0.length : Int) < expected then
    exBind (pyFloorDiv (raw0.length : Int) bpp) (fun avail =>
      if avail = 0 then .error .noBinaryData
      else .ok (pySliceTo raw0 (avail * bpp)))
  else .ok raw0

/-- The dtype-building loop, lines 239-255: for each field, index into the
parallel size/type/count arrays (IndexError when one is short), then map
the (type, size) pair to a base type. -/
def buildElems : List String → List Int → List String → List Int →
    Except Err (List (String × Base × Int))
  | [], _, _, _ => .ok []
  | f :: fs, s :: ss, t :: ts, c :: cs =>
    exBind (mapBase t s) (fun b =>
      exBind (buildElems fs ss ts cs) (fun rest => .ok ((f, b, c) :: rest)))
  | _ :: _, _, _, _ => .error .indexError

/-- Validation performed by `np.dtype(dtype_elems)`: repeat counts must be
non-negative and field names unique. -/
def dtypeValidate (elems : List (String × Base × Int)) : Except Err (List DtypeElem) :=
  if elems.any (fun e => e.2.2 < 0) then .error .valueError
  else if (elems.map (fun e => e.1)).Nodup then
    .ok (elems.map (fun e => { name := e.1, base := e.2.1, cnt := e.2.2.toNat }))
  else .error .dupFieldName

/-- Resolved record layout for the binary payload. -/
def buildDtype (fields : List String) (sizes : List Int) (typesU : List String)
    (counts : List Int) : Except Err (List DtypeElem) :=
  exBind (buildElems fields sizes typesU counts) dtypeValidate

/-- Byte offset of each field inside a record, with its base type and
repeat count. -/
def offsetsFrom (off : Nat) : List DtypeElem → List (Nat × DtypeElem)
  | [] => []
  | e :: rest => (off, e) :: offsetsFrom (off + elemWidth e) rest

/-- Bytes `raw[off : off + len]`. -/
def sliceBytes (raw : List Nat) (off len : Nat) : List Nat := (raw.drop off).take len

/-- Value of a base type read little-endian from its bytes.  Integers are
exact (two's complement for signed); floats follow IEEE 754. -/
def scaledOfBits (fracBits expBits : Nat) (bias : Int) (bits : Nat) : PyVal :=
  let frac := bits % 2 ^ fracBits
  let e := (bits / 2 ^ fracBits) % 2 ^ expBits
  let neg : Bool := (bits / 2 ^ (fracBits + expBits)) % 2 = 1
  let sgn : Int := if neg then -1 else 1
  if e = 2 ^ expBits - 1 then
    if frac ≠ 0 then .nan else if neg then .ninf else .inf
  else if e = 0 then
    if frac = 0 then .fin 0 else .fin (scaled2 (sgn * frac) (1 - bias - fracBits))
  else .fin (scaled2 (sgn * ((2 : Int) ^ fracBits + frac)) ((e : Int) - bias - fracBits))

/-- Decode one element of a base type from its little-endian bytes. -/
def decodeBase (b : Base) (bs : List Nat) : PyVal :=
  match b with
  | .f4 => scaledOfBits 23 8 127 (leNat (bs.take 4))
  | .f8 => scaledOfBits 52 11 1023 (leNat (bs.take 8))
  | .uint w => .fin (mkRat (leNat (bs.take w) : Int) 1)
  | .sint w =>
    let v := leNat (bs.take w)
    .fin (mkRat (if 2 ^ (8 * w - 1) ≤ v then (v : Int) - 2 ^ (8 * w) else (v : Int)) 1)

/-- First element of every field of record `r` (multi-count fields only
contribute their first element downstream, via `arr[:, 0]`). -/
def recordAt (dt : List DtypeElem) (raw : List Nat) (base : Nat) : List PyVal :=
  (offsetsFrom 0 dt).map (fun oe =>
    decodeBase oe.2.base (sliceBytes raw (base + oe.1) (baseWidth oe.2.base)))

/-- Model of `np.frombuffer(raw, dtype)`: the buffer length must be a
positive multiple of the itemsize, giving `len(raw) / itemsize` records. -/
def fromBuffer (dt : List DtypeElem) (raw : List Nat) : Except Err (List (List PyVal)) :=
  let isz := itemsize dt
  if isz = 0 then .error .valueError
  else if raw.length % isz ≠ 0 then .error .bufferSizeError
  else .ok ((List.range (raw.length / isz)).map (fun r => recordAt dt raw (r * isz)))

/-- Column selection for binary mode, lines 258-264: the three name
lookups sit in one try block, so if any of x/y/z is missing they all fall
back to positions 0, 1, 2. -/
def selectIdx (fl : List String) : Nat × Nat × Nat :=
  match findIdxFrom "x" fl, findIdxFrom "y" fl, findIdxFrom "z" fl with
  | some a, some b, some c => (a, b, c)
  | _, _, _ => (0, 1, 2)

/-- The `fields[i]` lookup followed by the `structured[name]` column lookup
(first dtype field with that name; names are unique past `np.dtype`). -/
def colOf (flds : List String) (i : Nat) : Except Err Nat :=
  match flds.get? i with
  | none => .error .indexError
  | some name =>
    match findIdxFrom name flds with
    | some j => .ok j
    | none => .error .valueError

/-- The `arr[:, 0]` first-element view: selecting a zero-count field
raises IndexError on its empty minor axis. -/
def cntOk (dt : List DtypeElem) (j : Nat) : Except Err Unit :=
  match dt.get? j with
  | some e => if e.cnt = 0 then .error .indexError else .ok ()
  | none => .error .indexError

/-- Point extraction and the finiteness mask, lines 258-314: select the
three columns, coerce (already exact here), and keep exactly the rows whose
three values are all finite.  An all-filtered result is returned as an
empty collection without error. -/
def extractPoints (dt : List DtypeElem) (flds : List String) (recs : List (List PyVal)) :
    Except Err (List Pt) :=
  match selectIdx (flds.map pyLower) with
  | (xi, yi, zi) =>
    exBind (colOf flds xi) (fun cx =>
      exBind (cntOk dt cx) (fun _ =>
        exBind (colOf flds yi) (fun cy =>
          exBind (cntOk dt cy) (fun _ =>
            exBind (colOf flds zi) (fun cz =>
              exBind (cntOk dt cz) (fun _ =>
                .ok (recs.filterMap (fun rec =>
                  let vx := rec.getD cx .nan
                  let vy := rec.getD cy .nan
                  let vz := rec.getD cz .nan
                  if vx.isFinite && vy.isFinite && vz.isFinite then some (vx, vy, vz)
                  else none))))))))

/-- Binary payload decoder, lines 212-314.  `r0` is the decompressed
buffer when the mode was compressed (`none` means read from the stream),
`uncomp?` the declared uncompressed size from the frame header. -/
def binaryDecode (fields? size? types? count? : Option (List String)) (np0 : Option Int)
    (r0 : Option (List Nat)) (uncomp? : Option Nat) (stream : List Nat) :
    Except Err (List Pt) :=
  if pyTruthyL fields? && pyTruthyL size? && pyTruthyL types? then
    let fields := optVals fields?
    exBind (intsOf (optVals size?)) (fun sizes =>
      let typesU := (optVals types?).map pyUpper
      exBind (countsOf count? fields.length) (fun counts =>
        exBind (bppSum sizes counts) (fun bpp =>
          exBind (numPointsOf np0 uncomp? bpp stream.length) (fun numPts =>
            let expected : Int := numPts * bpp
            let raw0 := match r0 with
              | some r => r
              | none => pyRead expected stream
            exBind (truncAdjust raw0 expected bpp) (fun raw =>
              exBind (buildDtype fields sizes typesU counts) (fun dt =>
                exBind (fromBuffer dt raw) (fun recs =>
                  extractPoints dt fields recs)))))))
  else .error .incompleteLayout

/-- Whole-decoder model of `_read_pcd` past the header loop: dispatch on
the data mode, run the compressed stage when needed, and decode. -/
def readPCD (c : CodecSet) (hdr : List (List String)) (dataLine : List String)
    (rows : List (List String)) (stream : List Nat) : Except Err (List Pt) :=
  let dt := dataTypeOf dataLine
  let fields? := fieldsOf hdr
  let size? := getDirective hdr "size"
  let types? := getDirective hdr "type"
  let count? := getDirective hdr "count"
  let np0 := resolveNumPoints (getDirective hdr "points") (getDirective hdr "width")
    (getDirective hdr "height")
  if dt = "ascii" then asciiDecode fields? rows
  else if pyStartsWith dt "binary_compressed" then
    match compressedStage c stream with
    | .error e => .error e
    | .ok (d, u, rest) => binaryDecode fields? size? types? count? np0 (some d) (some u) rest
  else if pyStartsWith dt "binary" then
    binaryDecode fields? size? types? count? np0 none none stream
  else .error .unsupportedDataType

/-! ### Derived forms used in the theorems -/

/-- A codec set in which every decompression attempt fails (this also
models the decoder when no compressed input is ever reached). -/
def noCodecs : CodecSet :=
  { zlib := fun _ => none, gzip := fun _ => none, lz4 := none, rawDeflate := fun _ => none }

/-- Header lines declaring the common layout: three 4-byte float fields
named x, y, z. -/
def stdHdr : List (List String) :=
  [["FIELDS", "x", "y", "z"], ["SIZE", "4", "4", "4"], ["TYPE", "F", "F", "F"]]

/-- The common layout header together with a POINTS directive. -/
def stdHdrP (s : String) : List (List String) := stdHdr ++ [["POINTS", s]]

/-- The resolved dtype of the common layout. -/
def stdDt : List DtypeElem :=
  [{ name := "x", base := .f4, cnt := 1 }, { name := "y", base := .f4, cnt := 1 },
   { name := "z", base := .f4, cnt := 1 }]

/-- Row `r` of a raw buffer under the common layout: the three 32-bit
floats at offsets 12r, 12r+4, 12r+8. -/
def stdRow (raw : List Nat) (r : Nat) : Pt :=
  (decodeBase .f4 (sliceBytes raw (r * 12) 4),
   decodeBase .f4 (sliceBytes raw (r * 12 + 4) 4),
   decodeBase .f4 (sliceBytes raw (r * 12 + 8) 4))

/-- Whether all three coordinates of a point are finite. -/
def finPt (p : Pt) : Bool := p.1.isFinite && p.2.1.isFinite && p.2.2.isFinite

/-- All whole records of a raw buffer under the common layout, keeping
exactly the rows whose coordinates are all finite. -/
def stdPoints (raw : List Nat) : List Pt :=
  ((List.range (raw.length / 12)).map (stdRow raw)).filter finPt

/-- A point whose three coordinates are the float zero. -/
def zeroPt : Pt := (.fin 0, .fin 0, .fin 0)

/-! ### Helper lemmas -/

theorem filterMap_ite_eq_filter_map {α β : Type} (p : α → Bool) (v : α → β) (l : List α) :
    l.filterMap (fun a => if p a then some (v a) else none) = (l.filter p).map v := by
  induction l with
  | nil => rfl
  | cons a t ih =>
    by_cases h : p a <;> simp [List.filterMap_cons, List.filter_cons, h, ih]

theorem binaryDecode_std (np0 : Option Int) (r0 : Option (List Nat)) (uncomp? : Option Nat)
    (stream : List Nat) :
    binaryDecode (some ["x", "y", "z"]) (some ["4", "4", "4"]) (some ["F", "F", "F"]) none
      np0 r0 uncomp? stream =
    exBind (numPointsOf np0 uncomp? 12 stream.length) (fun numPts =>
      exBind (truncAdjust (match r0 with
          | some r => r
          | none => pyRead (numPts * 12) stream) (numPts * 12) 12) (fun raw =>
        exBind (fromBuffer stdDt raw) (fun recs => extractPoints stdDt ["x", "y", "z"] recs))) := by
  rfl

theorem extractPoints_std (recs : List (List PyVal)) :
    extractPoints stdDt ["x", "y", "z"] recs =
    .ok (recs.filterMap (fun rec =>
      if (rec.getD 0 .nan).isFinite && (rec.getD 1 .nan).isFinite
          && (rec.getD 2 .nan).isFinite then
        some (rec.getD 0 .nan, rec.getD 1 .nan, rec.getD 2 .nan)
      else none)) := by
  rfl

theorem stdPipe (raw : List Nat) (h : raw.length % 12 = 0) :
    exBind (fromBuffer stdDt raw) (fun recs => extractPoints stdDt ["x", "y", "z"] recs) =
    .ok (stdPoints raw) := by
  have hisz : itemsize stdDt = 12 := rfl
  unfold fromBuffer
  rw [hisz]
  rw [if_neg (by omega), if_neg (by simp [h])]
  rw [exBind_ok, extractPoints_std]
  rw [List.filterMap_map]
  have hcomp : ((fun rec : List PyVal =>
      if (rec.getD 0 .nan).isFinite && (rec.getD 1 .nan).isFinite
          && (rec.getD 2 .nan).isFinite then
        some (rec.getD 0 .nan, rec.getD 1 .nan, rec.getD 2 .nan)
      else none) ∘ (fun r : Nat => recordAt stdDt raw (r * 12))) =
      (fun r : Nat => if finPt (stdRow raw r) then some (stdRow raw r) else none) := by
    funext r
    rfl
  rw [hcomp]
  rw [filterMap_ite_eq_filter_map (fun r => finPt (stdRow raw r)) (stdRow raw)
    (List.range (raw.length / 12))]
  unfold stdPoints
  rw [List.filter_map]
  rfl

theorem stdPipeErr (raw : List Nat) (h : raw.length % 12 ≠ 0) :
    exBind (fromBuffer stdDt raw) (fun recs => extractPoints stdDt ["x", "y", "z"] recs) =
    .error .bufferSizeError := by
  have hisz : itemsize stdDt = 12 := rfl
  unfold fromBuffer
  rw [hisz]
  rw [if_neg (by omega), if_pos (by simp [h])]
  rfl

theorem binaryDecode_std_plain (np0 : Option Int) (stream : List Nat) :
    binaryDecode (some ["x", "y", "z"]) (some ["4", "4", "4"]) (some ["F", "F", "F"]) none
      np0 none none stream =
    exBind (numPointsOf np0 none 12 stream.length) (fun numPts =>
      exBind (truncAdjust (pyRead (numPts * 12) stream) (numPts * 12) 12) (fun raw =>
        exBind (fromBuffer stdDt raw) (fun recs =>
          extractPoints stdDt ["x", "y", "z"] recs))) := by
  rfl

theorem binaryDecode_std_comp (np0 : Option Int) (d : List Nat) (u : Nat) (stream : List Nat) :
    binaryDecode (some ["x", "y", "z"]) (some ["4", "4", "4"]) (some ["F", "F", "F"]) none
      np0 (some d) (some u) stream =
    exBind (numPointsOf np0 (some u) 12 stream.length) (fun numPts =>
      exBind (truncAdjust d (numPts * 12) 12) (fun raw =>
        exBind (fromBuffer stdDt raw) (fun recs =>
          extractPoints stdDt ["x", "y", "z"] recs))) := by
  rfl

theorem fdiv_natCast_twelve (m : Nat) :
    Int.fdiv (m : Int) (12 : Int) = ((m / 12 : Nat) : Int) := by
  exact_mod_cast (Int.ofNat_fdiv m 12).symm

theorem pyRead_natCast (k : Nat) (stream : List Nat) :
    pyRead (((k : Nat) : Int) * 12) stream = stream.take (k * 12) := by
  unfold pyRead
  rw [if_neg (by omega)]
  rw [show (((k : Nat) : Int) * 12).toNat = k * 12 by omega]

theorem binary_unresolved (stream : List Nat) :
    binaryDecode (some ["x", "y", "z"]) (some ["4", "4", "4"]) (some ["F", "F", "F"]) none
      none none none stream = .ok (stdPoints (stream.take (stream.length / 12 * 12))) := by
  rw [binaryDecode_std_plain]
  have h1 : numPointsOf none none 12 stream.length =
      .ok ((stream.length / 12 : Nat) : Int) := by
    unfold numPointsOf pyFloorDiv
    rw [if_neg (by omega), exBind_ok, fdiv_natCast_twelve]
    rw [max_eq_right (Int.ofNat_nonneg _)]
  simp only [h1, exBind_ok]
  rw [pyRead_natCast]
  have hlen : (stream.take (stream.length / 12 * 12)).length = stream.length / 12 * 12 := by
    rw [List.length_take]
    exact min_eq_left (Nat.div_mul_le_self _ _)
  have h3 : truncAdjust (stream.take (stream.length / 12 * 12))
      (((stream.length / 12 : Nat) : Int) * 12) 12 =
      .ok (stream.take (stream.length / 12 * 12)) := by
    unfold truncAdjust
    rw [if_neg (by rw [hlen]; push_cast; omega)]
  simp only [h3, exBind_ok]
  exact stdPipe _ (by rw [hlen]; exact Nat.mul_mod_left _ _)

theorem binary_resolved_cases (stream : List Nat) (n : Nat) (hn : 1 ≤ n) :
    (12 * n ≤ stream.length →
      binaryDecode (some ["x", "y", "z"]) (some ["4", "4", "4"]) (some ["F", "F", "F"]) none
        (some ((n : Nat) : Int)) none none stream = .ok (stdPoints (stream.take (n * 12)))) ∧
    (stream.length < 12 →
      binaryDecode (some ["x", "y", "z"]) (some ["4", "4", "4"]) (some ["F", "F", "F"]) none
        (some ((n : Nat) : Int)) none none stream = .error .noBinaryData) ∧
    (12 ≤ stream.length → stream.length < 12 * n →
      binaryDecode (some ["x", "y", "z"]) (some ["4", "4", "4"]) (some ["F", "F", "F"]) none
        (some ((n : Nat) : Int)) none none stream =
        .ok (stdPoints (stream.take (stream.length / 12 * 12)))) := by
  have hbd := binaryDecode_std_plain (some ((n : Nat) : Int)) stream
  have hnp : numPointsOf (some ((n : Nat) : Int)) none 12 stream.length =
      .ok ((n : Nat) : Int) := rfl
  rw [hnp] at hbd
  simp only [exBind_ok] at hbd
  rw [pyRead_natCast] at hbd
  refine ⟨?_, ?_, ?_⟩
  · intro hge
    have hlen : (stream.take (n * 12)).length = n * 12 := by
      rw [List.length_take]
      exact min_eq_left (by omega)
    have htr : truncAdjust (stream.take (n * 12)) (((n : Nat) : Int) * 12) 12 =
        .ok (stream.take (n * 12)) := by
      unfold truncAdjust
      rw [if_neg (by rw [hlen]; push_cast; omega)]
    rw [hbd, htr, exBind_ok]
    exact stdPipe _ (by rw [hlen]; exact Nat.mul_mod_left _ _)
  · intro hlt
    have hlen : (stream.take (n * 12)).length = stream.length := by
      rw [List.length_take]
      exact min_eq_right (by nlinarith)
    have htr : truncAdjust (stream.take (n * 12)) (((n : Nat) : Int) * 12) 12 =
        .error .noBinaryData := by
      unfold truncAdjust
      rw [if_pos (by rw [hlen]; nlinarith), hlen]
      unfold pyFloorDiv
      rw [if_neg (by omega), exBind_ok, fdiv_natCast_twelve]
      rw [if_pos (by rw [Nat.div_eq_of_lt hlt]; rfl)]
    rw [hbd, htr]
    rfl
  · intro hge hlt
    have hlen : (stream.take (n * 12)).length = stream.length := by
      rw [List.length_take]
      exact min_eq_right (by omega)
    have hdvd : stream.length / 12 ≠ 0 := by
      intro hz
      have := Nat.div_eq_zero_iff (by omega : 0 < 12) |>.mp hz
      omega
    have htr : truncAdjust (stream.take (n * 12)) (((n : Nat) : Int) * 12) 12 =
        .ok (stream.take (stream.length / 12 * 12)) := by
      unfold truncAdjust
      rw [if_pos (by rw [hlen]; omega), hlen]
      unfold pyFloorDiv
      rw [if_neg (by omega), exBind_ok, fdiv_natCast_twelve]
      rw [if_neg (by exact_mod_cast hdvd)]
      unfold pySliceTo
      rw [if_pos (by positivity)]
      rw [show ((stream.length / 12 : Nat) : Int) * 12 =
        ((stream.length / 12 * 12 : Nat) : Int) by push_cast; ring]
      rw [Int.toNat_natCast, List.take_take]
      rw [min_eq_left (by have := Nat.div_mul_le_self stream.length 12; omega)]
    rw [hbd, htr, exBind_ok]
    have hlen2 : (stream.take (stream.length / 12 * 12)).length = stream.length / 12 * 12 := by
      rw [List.length_take]
      exact min_eq_left (Nat.div_mul_le_self _ _)
    exact stdPipe _ (by rw [hlen2]; exact Nat.mul_mod_left _ _)

theorem binary_comp_cases (d : List Nat) (u : Nat) (hu : u ≠ 0) (stream : List Nat) :
    (d.length < u / 12 * 12 → d.length < 12 →
      binaryDecode (some ["x", "y", "z"]) (some ["4", "4", "4"]) (some ["F", "F", "F"]) none
        none (some d) (some u) stream = .error .noBinaryData) ∧
    (d.length < u / 12 * 12 → 12 ≤ d.length →
      binaryDecode (some ["x", "y", "z"]) (some ["4", "4", "4"]) (some ["F", "F", "F"]) none
        none (some d) (some u) stream = .ok (stdPoints (d.take (d.length / 12 * 12)))) ∧
    (u / 12 * 12 ≤ d.length → 12 ∣ d.length →
      binaryDecode (some ["x", "y", "z"]) (some ["4", "4", "4"]) (some ["F", "F", "F"]) none
        none (some d) (some u) stream = .ok (stdPoints d)) ∧
    (u / 12 * 12 ≤ d.length → ¬(12 ∣ d.length) →
      binaryDecode (some ["x", "y", "z"]) (some ["4", "4", "4"]) (some ["F", "F", "F"]) none
        none (some d) (some u) stream = .error .bufferSizeError) := by
  have hbd := binaryDecode_std_comp none d u stream
  have hnp : numPointsOf none (some u) 12 stream.length = .ok ((u / 12 : Nat) : Int) := by
    have h0 : numPointsOf none (some u) 12 stream.length =
        (if u ≠ 0 then pyFloorDiv ((u : Nat) : Int) 12
         else exBind (pyFloorDiv ((stream.length : Nat) : Int) 12)
           (fun k => .ok (max 0 k))) := rfl
    rw [h0, if_pos hu]
    unfold pyFloorDiv
    rw [if_neg (by omega), fdiv_natCast_twelve]
  rw [hnp] at hbd
  simp only [exBind_ok] at hbd
  refine ⟨?_, ?_, ?_, ?_⟩
  · intro hlt hsmall
    have htr : truncAdjust d (((u / 12 : Nat) : Int) * 12) 12 = .error .noBinaryData := by
      unfold truncAdjust
      rw [if_pos (by push_cast; omega)]
      unfold pyFloorDiv
      rw [if_neg (by omega), exBind_ok, fdiv_natCast_twelve]
      rw [if_pos (by rw [Nat.div_eq_of_lt hsmall]; rfl)]
    rw [hbd, htr]
    rfl
  · intro hlt hbig
    have hdvd : d.length / 12 ≠ 0 := by
      intro hz
      have := Nat.div_eq_zero_iff (by omega : 0 < 12) |>.mp hz
      omega
    have htr : truncAdjust d (((u / 12 : Nat) : Int) * 12) 12 =
        .ok (d.take (d.length / 12 * 12)) := by
      unfold truncAdjust
      rw [if_pos (by push_cast; omega)]
      unfold pyFloorDiv
      rw [if_neg (by omega), exBind_ok, fdiv_natCast_twelve]
      rw [if_neg (by exact_mod_cast hdvd)]
      unfold pySliceTo
      rw [if_pos (by positivity)]
      rw [show ((((d.length / 12 : Nat) : Int)) * 12).toNat = d.length / 12 * 12 by omega]
    rw [hbd, htr]
    simp only [exBind_ok]
    have hlen2 : (d.take (d.length / 12 * 12)).length = d.length / 12 * 12 := by
      rw [List.length_take]
      exact min_eq_left (Nat.div_mul_le_self _ _)
    exact stdPipe _ (by rw [hlen2]; exact Nat.mul_mod_left _ _)
  · intro hge hdvd
    have htr : truncAdjust d (((u / 12 : Nat) : Int) * 12) 12 = .ok d := by
      unfold truncAdjust
      rw [if_neg (by push_cast; omega)]
    rw [hbd, htr]
    simp only [exBind_ok]
    exact stdPipe _ (by omega)
  · intro hge hnd
    have htr : truncAdjust d (((u / 12 : Nat) : Int) * 12) 12 = .ok d := by
      unfold truncAdjust
      rw [if_neg (by push_cast; omega)]
    rw [hbd, htr]
    simp only [exBind_ok]
    exact stdPipeErr _ (by omega)

theorem readPCD_std_binary (c : CodecSet) (rows : List (List String)) (stream : List Nat) :
    readPCD c stdHdr ["DATA", "binary"] rows stream =
    binaryDecode (some ["x", "y", "z"]) (some ["4", "4", "4"]) (some ["F", "F", "F"]) none
      none none none stream := by
  rfl

theorem readPCD_stdP_binary (c : CodecSet) (s : String) (rows : List (List String))
    (stream : List Nat) :
    readPCD c (stdHdrP s) ["DATA", "binary"] rows stream =
    binaryDecode (some ["x", "y", "z"]) (some ["4", "4", "4"]) (some ["F", "F", "F"]) none
      (pyInt s) none none stream := by
  rfl

theorem readPCD_std_comp (c : CodecSet) (rows : List (List String)) (stream : List Nat) :
    readPCD c stdHdr ["DATA", "binary_compressed"] rows stream =
    (match compressedStage c stream with
     | .error e => .error e
     | .ok (d, u, rest) =>
       binaryDecode (some ["x", "y", "z"]) (some ["4", "4", "4"]) (some ["F", "F", "F"]) none
         none (some d) (some u) rest) := by
  rfl

/-! ### Claim C1: declared (type, size) to concrete kind mapping -/

/-- Header declaring an `F` field of size 2 (an unsupported pair per the
claim) next to two well-formed `F` 4 fields. -/
def hdrF2 : List (List String) :=
  [["FIELDS", "x", "y", "z"], ["SIZE", "2", "4", "4"], ["TYPE", "F", "F", "F"]]

/-- C1 counterexample: the claim says an `F` field of size 2 must fail with
UnsupportedFieldType, but the code maps every `F` size other than 4 to a
64-bit float, so this input decodes successfully (the 10-byte declared
stride and the 16-byte actual record size then slice an 80-byte payload
into five records). -/
theorem c1_counterexample :
    readPCD noCodecs hdrF2 ["DATA", "binary"] [] (List.replicate 80 0) =
    .ok (List.replicate 5 zeroPt) := by
  decide

/-- C1 amended: `(F, 4)` maps to a 32-bit float and `(F, s)` for every
other `s` (including 8, as claimed, but also every unsupported size) maps
silently to a 64-bit float; `(I, s)`/`(U, s)` map to signed/unsigned
integers exactly for `s` in 1, 2, 4, 8 and fail with an untyped KeyError
otherwise; only a type character outside F/I/U fails with
UnsupportedFieldType. -/
theorem c1_type_mapping (s : Int) (t : String) :
    (mapBase "F" s = .ok (if s = 4 then Base.f4 else Base.f8)) ∧
    (s = 1 ∨ s = 2 ∨ s = 4 ∨ s = 8 →
      mapBase "I" s = .ok (.sint s.toNat) ∧ mapBase "U" s = .ok (.uint s.toNat)) ∧
    (¬(s = 1 ∨ s = 2 ∨ s = 4 ∨ s = 8) →
      mapBase "I" s = .error .keyError ∧ mapBase "U" s = .error .keyError) ∧
    (t ≠ "F" → t ≠ "I" → t ≠ "U" → mapBase t s = .error .unsupportedFieldType) := by
  refine ⟨?_, ?_, ?_, ?_⟩
  · unfold mapBase
    rw [if_pos rfl]
  · intro h
    rcases h with rfl | rfl | rfl | rfl <;> exact ⟨by decide, by decide⟩
  · intro h
    have h4 : ((¬s = 1 ∧ ¬s = 2) ∧ ¬s = 4) ∧ ¬s = 8 := by tauto
    constructor
    · unfold mapBase
      rw [if_neg (by decide), if_pos rfl, if_neg (by simpa using h4)]
    · unfold mapBase
      rw [if_neg (by decide), if_neg (by decide), if_pos rfl, if_neg (by simpa using h4)]
  · intro h1 h2 h3
    unfold mapBase
    rw [if_neg h1, if_neg h2, if_neg h3]

/-- C1 witness: the amended mapping at size 2 (remapped to f8), at an
`I` size outside the dictionary, and at an unknown type character. -/
theorem c1_type_mapping_witness :
    mapBase "F" 2 = .ok Base.f8 ∧ mapBase "I" 3 = .error .keyError ∧
    mapBase "Q" 4 = .error .unsupportedFieldType :=
  ⟨((c1_type_mapping 2 "Q").1).trans (by decide),
   ((c1_type_mapping 3 "Q").2.2.1 (by decide)).1,
   (c1_type_mapping 4 "Q").2.2.2 (by decide) (by decide) (by decide)⟩

/-! ### Claim C2: finiteness filtering -/

/-- One binary record whose three 32-bit floats are all NaN. -/
def nanPay : List Nat := [0, 0, 192, 127, 0, 0, 192, 127, 0, 0, 192, 127]

/-- C2 counterexample: the claim says an input all of whose rows are
non-finite fails with EmptyPointCloud, but the binary path has no such
check and returns an empty collection successfully. -/
theorem c2_counterexample :
    readPCD noCodecs stdHdr ["DATA", "binary"] [] nanPay = .ok [] := by
  decide

/-- C2 amended: in binary mode a decoded row is kept exactly when all
three coordinates are finite (`stdPoints` filters by `finPt`), and an
all-filtered result is the empty collection, not an error; in ASCII mode
there is no finiteness filter at all — a row of NaN tokens parses and is
kept. -/
theorem c2_finiteness_filter (c : CodecSet) (rows : List (List String)) (payload : List Nat)
    (n : Nat) (h : payload.length = 12 * n) :
    readPCD c stdHdr ["DATA", "binary"] rows payload = .ok (stdPoints payload) ∧
    asciiDecode (some ["x", "y", "z"]) [["nan", "nan", "nan"]] =
      .ok [(.nan, .nan, .nan)] := by
  constructor
  · rw [readPCD_std_binary, binary_unresolved]
    have hdiv : payload.length / 12 * 12 = payload.length := by
      rw [h]
      omega
    rw [hdiv, List.take_length]
  · decide

/-- C2 witness: the amended theorem applied to the all-NaN single-record
payload; the filter drops the row and the decoder returns the empty
collection. -/
theorem c2_finiteness_filter_witness :
    nanPay.length = 12 * 1 ∧
    readPCD noCodecs stdHdr ["DATA", "binary"] [] nanPay = .ok (stdPoints nanPay) ∧
    stdPoints nanPay = [] :=
  ⟨by decide, (c2_finiteness_filter noCodecs [] nanPay 1 (by decide)).1, by decide⟩

/-! ### Claim C3: byte budget of the binary decoder -/

/-- A codec set whose zlib model decompresses the one-byte payload `[7]`
to 24 zero bytes (two whole records) — a perfectly legal zlib stream
behaviour. -/
def overCodecs : CodecSet :=
  { zlib := fun c => if c = [7] then some (List.replicate 24 0) else none,
    gzip := fun _ => none, lz4 := none, rawDeflate := fun _ => none }

/-- C3 counterexample: the claim says a payload buffer longer than
`point_count * stride` never yields more than `point_count` points, but in
compressed mode the whole decompressed buffer is parsed: with POINTS 1 and
a 24-byte decompressed payload the decoder returns two points. -/
theorem c3_counterexample :
    readPCD overCodecs (stdHdrP "1") ["DATA", "binary_compressed"] []
      [1, 0, 0, 0, 24, 0, 0, 0, 7] = .ok [zeroPt, zeroPt] := by
  decide

/-- C3 amended, for uncompressed binary payloads (where the claim does
hold): with a resolved POINTS count n ≥ 1, the decoder reads at most
`n * 12` payload bytes; a payload of at least that length yields the first
n records only; fewer bytes than one stride fail with NoBinaryData; `k`
whole records (k < n) yield exactly the `k` records present, and exactly
`k` points when those rows are finite. -/
theorem c3_truncation (c : CodecSet) (rows : List (List String)) (stream : List Nat)
    (s : String) (n : Nat) (hs : pyInt s = some ((n : Nat) : Int)) (hn : 1 ≤ n) :
    (12 * n ≤ stream.length →
      readPCD c (stdHdrP s) ["DATA", "binary"] rows stream =
        .ok (stdPoints (stream.take (n * 12)))) ∧
    (stream.length < 12 →
      readPCD c (stdHdrP s) ["DATA", "binary"] rows stream = .error .noBinaryData) ∧
    (12 ≤ stream.length → stream.length < 12 * n →
      readPCD c (stdHdrP s) ["DATA", "binary"] rows stream =
        .ok (stdPoints (stream.take (stream.length / 12 * 12)))) ∧
    (∀ k : Nat, stream.length = 12 * k → 0 < k → k < n →
      (∀ r, r < k → finPt (stdRow stream r) = true) →
      readPCD c (stdHdrP s) ["DATA", "binary"] rows stream =
        .ok ((List.range k).map (stdRow stream))) := by
  have hbr := binary_resolved_cases stream n hn
  refine ⟨?_, ?_, ?_, ?_⟩
  · intro hge
    rw [readPCD_stdP_binary, hs]
    exact hbr.1 hge
  · intro hlt
    rw [readPCD_stdP_binary, hs]
    exact hbr.2.1 hlt
  · intro h12 hlt
    rw [readPCD_stdP_binary, hs]
    exact hbr.2.2 h12 hlt
  · intro k hk hk0 hkn hfin
    rw [readPCD_stdP_binary, hs]
    rw [hbr.2.2 (by omega) (by omega)]
    have hdiv : stream.length / 12 * 12 = stream.length := by
      rw [hk]
      omega
    rw [hdiv, List.take_length]
    unfold stdPoints
    rw [show stream.length / 12 = k from by omega]
    congr 1
    apply List.filter_eq_self.mpr
    intro p hp
    obtain ⟨r, hr, rfl⟩ := List.mem_map.mp hp
    exact hfin r (List.mem_range.mp hr)

/-- C3 witness: POINTS 2 with a single whole record present decodes to
exactly that one (zero) point. -/
theorem c3_truncation_witness :
    readPCD noCodecs (stdHdrP "2") ["DATA", "binary"] [] (List.replicate 12 0) =
    .ok [zeroPt] :=
  ((c3_truncation noCodecs [] (List.replicate 12 0) "2" 2 (by decide) (by decide)).2.2.1
    (by decide) (by decide)).trans (by decide)

/-! ### Claim C4: compressed frame header and codec fallback chain -/

/-- C4 confirmed: past an 8-byte frame header, a short compressed payload
is fatal with TruncatedPayload, and otherwise the result is exactly that
of the first succeeding codec in the ordered chain zlib, gzip, lz4 (when
linked), raw deflate, with DecompressionFailed when every codec refuses. -/
theorem c4_compressed_frame (c : CodecSet) (stream : List Nat) (h8 : 8 ≤ stream.length) :
    (stream.length - 8 < compSizeOf stream →
      compressedStage c stream = .error .truncatedPayload) ∧
    (compSizeOf stream ≤ stream.length - 8 →
      compressedStage c stream =
        match firstSome (codecChain c) (compBytesOf stream) with
        | some d => .ok (d, uncompSizeOf stream, stream.drop (8 + compSizeOf stream))
        | none => .error .decompressionFailed) := by
  have ht8 : (stream.take 8).length = 8 := by
    rw [List.length_take]
    omega
  have hclen : (compBytesOf stream).length = min (compSizeOf stream) (stream.length - 8) := by
    unfold compBytesOf
    rw [List.length_take, List.length_drop]
  constructor
  · intro hlt
    unfold compressedStage
    rw [if_neg (by omega), if_pos (by rw [hclen]; omega)]
  · intro hge
    unfold compressedStage
    rw [if_neg (by omega), if_neg (by rw [hclen]; omega)]

/-- Codecs for the C4 witness: zlib refuses, gzip accepts the two-byte
payload. -/
def wCodecs : CodecSet :=
  { zlib := fun _ => none,
    gzip := fun b => if b = [9, 9] then some [1, 2, 3] else none,
    lz4 := none, rawDeflate := fun _ => none }

/-- C4 witness: a frame declaring 2 compressed bytes over a 10-byte stream
decompresses through the second codec of the chain. -/
theorem c4_compressed_frame_witness :
    compressedStage wCodecs [2, 0, 0, 0, 5, 0, 0, 0, 9, 9] = .ok ([1, 2, 3], 5, []) :=
  ((c4_compressed_frame wCodecs [2, 0, 0, 0, 5, 0, 0, 0, 9, 9] (by decide)).2
    (by decide)).trans (by decide)

/-! ### Claim C5: point-count resolution order -/

/-- Header whose POINTS value does not parse while WIDTH and HEIGHT do. -/
def hdrC5 : List (List String) :=
  stdHdr ++ [["POINTS", "abc"], ["WIDTH", "2"], ["HEIGHT", "3"]]

/-- C5 counterexample: the claim says an unparseable POINTS value still
permits the WIDTH*HEIGHT fallback (here 6), but the code leaves the count
unresolved and later infers 7 points from the 84-byte payload. -/
theorem c5_counterexample :
    readPCD noCodecs hdrC5 ["DATA", "binary"] [] (List.replicate 84 0) =
      .ok (List.replicate 7 zeroPt) ∧ (List.replicate 7 zeroPt).length ≠ 2 * 3 :=
  ⟨by decide, by decide⟩

/-- C5 amended: a truthy POINTS directive that parses resolves to its
value; one that fails to parse leaves the count unresolved with no
WIDTH*HEIGHT fallback; the WIDTH*HEIGHT product applies only when POINTS
is absent (or empty) and both factors parse nonzero; with nothing present
the count stays unresolved. -/
theorem c5_resolution (s sw sh : String) (ts tw th : List String)
    (w? h? : Option (List String)) (n nw nh : Int) :
    (pyInt s = some n → resolveNumPoints (some (s :: ts)) w? h? = some n) ∧
    (pyInt s = none → resolveNumPoints (some (s :: ts)) w? h? = none) ∧
    (pyInt sw = some nw → pyInt sh = some nh → nw ≠ 0 → nh ≠ 0 →
      resolveNumPoints none (some (sw :: tw)) (some (sh :: th)) = some (nw * nh)) ∧
    (resolveNumPoints none none none = none) := by
  have h0 : resolveNumPoints (some (s :: ts)) w? h? = pyInt s := rfl
  have h1 : resolveNumPoints none (some (sw :: tw)) (some (sh :: th)) =
      (match pyInt sw, pyInt sh with
       | some w, some h => if w ≠ 0 && h ≠ 0 then some (w * h) else none
       | _, _ => none) := rfl
  refine ⟨fun h => h0.trans h, fun h => h0.trans h, fun hw hh hw0 hh0 => ?_, rfl⟩
  rw [h1, hw, hh]
  show (if nw ≠ 0 && nh ≠ 0 then some (nw * nh) else none) = some (nw * nh)
  rw [if_pos (by simp [hw0, hh0])]

/-- C5 witness: the amended resolution applied where POINTS is present but
unparseable (unresolved, despite good WIDTH/HEIGHT) and where POINTS is
absent (product fallback fires). -/
theorem c5_resolution_witness :
    resolveNumPoints (some ["abc"]) (some ["2"]) (some ["3"]) = none ∧
    resolveNumPoints none (some ["2"]) (some ["3"]) = some 6 :=
  ⟨(c5_resolution "abc" "2" "3" [] [] [] (some ["2"]) (some ["3"]) 0 2 3).2.1 (by decide),
   ((c5_resolution "abc" "2" "3" [] [] [] none none 0 2 3).2.2.1 (by decide) (by decide)
     (by decide) (by decide)).trans (by decide)⟩

/-! ### Claim C6: compressed point-count derivation -/

/-- Codecs whose zlib model decompresses `[7]` to 18 bytes — one and a
half records — to witness a declared/actual length mismatch. -/
def mismCodecs : CodecSet :=
  { zlib := fun c => if c = [7] then some (List.replicate 18 0) else none,
    gzip := fun _ => none, lz4 := none, rawDeflate := fun _ => none }

/-- C6 counterexample: the claim says a frame whose declared
uncompressed_size disagrees with the actual decompressed length still
yields one point per whole decompressed record (here 18 / 12 = 1 point),
but point_count is derived from the declared size (12 / 12 = 1, expected
12 bytes) and the longer 18-byte buffer is handed whole to frombuffer,
which rejects it with an untyped buffer-size error. -/
theorem c6_counterexample :
    readPCD mismCodecs stdHdr ["DATA", "binary_compressed"] []
      [1, 0, 0, 0, 12, 0, 0, 0, 7] = .error .bufferSizeError := by
  decide

/-- C6 amended: with POINTS and WIDTH*HEIGHT absent, point_count is
derived from the declared uncompressed size (u / stride), not the actual
decompressed length; the output has one point per whole decompressed
record only when the actual length falls short of expected (truncation
recovery) or is an exact multiple of the stride; an overlong buffer that
is not a whole number of records fails with an untyped buffer-size error,
and an undersized one below one stride fails with NoBinaryData. -/
theorem c6_compressed_count (c : CodecSet) (rows : List (List String)) (stream : List Nat)
    (d : List Nat) (u : Nat) (rest : List Nat)
    (hcs : compressedStage c stream = .ok (d, u, rest)) (hu : u ≠ 0) :
    (d.length < u / 12 * 12 → d.length < 12 →
      readPCD c stdHdr ["DATA", "binary_compressed"] rows stream = .error .noBinaryData) ∧
    (d.length < u / 12 * 12 → 12 ≤ d.length →
      readPCD c stdHdr ["DATA", "binary_compressed"] rows stream =
        .ok (stdPoints (d.take (d.length / 12 * 12)))) ∧
    (u / 12 * 12 ≤ d.length → 12 ∣ d.length →
      readPCD c stdHdr ["DATA", "binary_compressed"] rows stream = .ok (stdPoints d)) ∧
    (u / 12 * 12 ≤ d.length → ¬(12 ∣ d.length) →
      readPCD c stdHdr ["DATA", "binary_compressed"] rows stream =
        .error .bufferSizeError) := by
  have hb := binary_comp_cases d u hu rest
  refine ⟨fun h1 h2 => ?_, fun h1 h2 => ?_, fun h1 h2 => ?_, fun h1 h2 => ?_⟩ <;>
    rw [readPCD_std_comp, hcs]
  · exact hb.1 h1 h2
  · exact hb.2.1 h1 h2
  · exact hb.2.2.1 h1 h2
  · exact hb.2.2.2 h1 h2

/-- C6 witness: with a declared uncompressed size of 24 matching a 24-byte
decompressed buffer, the decoder returns the two whole records. -/
theorem c6_compressed_count_witness :
    readPCD overCodecs stdHdr ["DATA", "binary_compressed"] []
      [1, 0, 0, 0, 24, 0, 0, 0, 7] = .ok [zeroPt, zeroPt] :=
  ((c6_compressed_count overCodecs [] [1, 0, 0, 0, 24, 0, 0, 0, 7]
      (List.replicate 24 0) 24 [] (by decide) (by decide)).2.2.1
    (by decide) (by decide)).trans (by decide)

/-! ### Claim C7: IncompleteLayout conditions -/

/-- Header whose SIZE array is shorter than FIELDS and TYPE. -/
def hdrC7 : List (List String) :=
  [["FIELDS", "x", "y", "z"], ["SIZE", "4", "4"], ["TYPE", "F", "F", "F"]]

/-- C7 counterexample: the claim says mismatched parallel arrays fail with
IncompleteLayout, but the presence check passes and the stride loop then
indexes past the short SIZE array, raising an untyped IndexError. -/
theorem c7_counterexample :
    readPCD noCodecs hdrC7 ["DATA", "binary"] [] (List.replicate 8 0) =
      .error .indexError ∧ Err.indexError ≠ Err.incompleteLayout :=
  ⟨by decide, by decide⟩

/-- Characterisation of the ascii decoder: the kept rows in order, or
EmptyPointCloud when none are kept. -/
theorem asciiDecode_eq (fields? : Option (List String)) (rows : List (List String))
    (xi yi zi : Nat) (hsel : asciiSelect fields? = (xi, yi, zi)) :
    asciiDecode fields? rows =
      if rows.filter (asciiKeep xi yi zi) = [] then .error .emptyPointCloud
      else .ok ((rows.filter (asciiKeep xi yi zi)).map (asciiVal xi yi zi)) := by
  unfold asciiDecode
  rw [hsel]
  show (if rows.filterMap (fun parts =>
        if asciiKeep xi yi zi parts then some (asciiVal xi yi zi parts) else none) = []
      then (.error .emptyPointCloud : Except Err (List Pt))
      else .ok (rows.filterMap (fun parts =>
        if asciiKeep xi yi zi parts then some (asciiVal xi yi zi parts) else none))) = _
  rw [filterMap_ite_eq_filter_map (asciiKeep xi yi zi) (asciiVal xi yi zi) rows]
  simp only [List.map_eq_nil_iff]

/-- C7 amended: in binary mode a falsy FIELDS/SIZE/TYPE lookup fails with
IncompleteLayout, and the ascii decoder can only ever fail with
EmptyPointCloud (never IncompleteLayout); mismatched parallel array
lengths, however, surface as untyped index errors (see the
counterexample). -/
theorem c7_incomplete_layout (c : CodecSet) (hdr : List (List String))
    (rows : List (List String)) (stream : List Nat) :
    ((pyTruthyL (fieldsOf hdr) && pyTruthyL (getDirective hdr "size")
        && pyTruthyL (getDirective hdr "type")) = false →
      readPCD c hdr ["data", "binary"] rows stream = .error .incompleteLayout) ∧
    (∀ fields? : Option (List String), ∀ rows2 : List (List String), ∀ e : Err,
      asciiDecode fields? rows2 = .error e → e = .emptyPointCloud) := by
  constructor
  · intro h
    show binaryDecode (fieldsOf hdr) (getDirective hdr "size") (getDirective hdr "type")
      (getDirective hdr "count")
      (resolveNumPoints (getDirective hdr "points") (getDirective hdr "width")
        (getDirective hdr "height")) none none stream = .error .incompleteLayout
    unfold binaryDecode
    rw [if_neg (by simp [h])]
  · intro fields? rows2 e h
    rcases hsel : asciiSelect fields? with ⟨xi, yi, zi⟩
    rw [asciiDecode_eq fields? rows2 xi yi zi hsel] at h
    by_cases hemp : rows2.filter (asciiKeep xi yi zi) = []
    · rw [if_pos hemp] at h
      exact (Except.error.inj h).symm
    · rw [if_neg hemp] at h
      exact absurd h (by simp)

/-- C7 witness: an empty header lacks all three layout directives and
fails with IncompleteLayout; the ascii-error application confirms the
only ascii failure kind. -/
theorem c7_incomplete_layout_witness :
    readPCD noCodecs [] ["data", "binary"] [] [] = .error .incompleteLayout ∧
    Err.emptyPointCloud = Err.emptyPointCloud :=
  ⟨(c7_incomplete_layout noCodecs [] [] []).1 (by decide),
   (c7_incomplete_layout noCodecs [] [] []).2 none [] .emptyPointCloud (by decide)⟩

/-! ### Claim C8: ascii row filtering -/

/-- C8 confirmed: for any ascii payload, the decoder keeps exactly the
rows accepted by `asciiKeep` (enough tokens and parseable x/y/z values;
blank and comment lines are never kept), in the original order, and fails
with EmptyPointCloud exactly when no row is kept. -/
theorem c8_ascii_rows (fields? : Option (List String)) (rows : List (List String))
    (xi yi zi : Nat) (hsel : asciiSelect fields? = (xi, yi, zi)) :
    (rows.filter (asciiKeep xi yi zi) = [] →
      asciiDecode fields? rows = .error .emptyPointCloud) ∧
    (rows.filter (asciiKeep xi yi zi) ≠ [] →
      asciiDecode fields? rows =
        .ok ((rows.filter (asciiKeep xi yi zi)).map (asciiVal xi yi zi))) := by
  constructor
  · intro h
    rw [asciiDecode_eq fields? rows xi yi zi hsel, if_pos h]
  · intro h
    rw [asciiDecode_eq fields? rows xi yi zi hsel, if_neg h]

/-- C8 witness: two well-formed rows around one malformed row decode to
exactly the two points, in order. -/
theorem c8_ascii_rows_witness :
    asciiDecode none [["1", "2", "3"], ["bad"], ["4", "5", "6"]] =
      .ok [(.fin 1, .fin 2, .fin 3), (.fin 4, .fin 5, .fin 6)] :=
  ((c8_ascii_rows none [["1", "2", "3"], ["bad"], ["4", "5", "6"]] 0 1 2 (by decide)).2
    (by decide)).trans (by decide)

/-! ### Claim C9: data-mode selection -/

/-- C9 counterexample: an unrecognized DATA token does not default to
binary — it fails with the unsupported-data-type error — while an absent
token does default to binary and decodes the same payload. -/
theorem c9_counterexample :
    readPCD noCodecs stdHdr ["DATA", "foo"] [] (List.replicate 12 0) =
      .error .unsupportedDataType ∧
    readPCD noCodecs stdHdr ["DATA"] [] (List.replicate 12 0) = .ok [zeroPt] :=
  ⟨by decide, by decide⟩

theorem startsWith_binary_of_compressed (s : String) :
    pyStartsWith s "binary_compressed" = true → pyStartsWith s "binary" = true := by
  unfold pyStartsWith
  intro h
  rw [List.isPrefixOf_iff_prefix] at h ⊢
  exact List.IsPrefix.trans (by decide) h

/-- C9 amended: a DATA line with fewer than two tokens selects binary by
default; a second token lowercasing to exactly "ascii" selects ascii; one
with the "binary_compressed" prefix selects the compressed path; any
other token with the "binary" prefix selects plain binary; every other
token is fatal with the unsupported-data-type error rather than a binary
default. -/
theorem c9_data_mode (c : CodecSet) (hdr : List (List String)) (rows : List (List String))
    (stream : List Nat) (a t : String) (rest2 : List String) :
    (∀ dl : List String, dl.length < 2 → dataTypeOf dl = "binary") ∧
    (pyLower t = "ascii" →
      readPCD c hdr (a :: t :: rest2) rows stream = asciiDecode (fieldsOf hdr) rows) ∧
    (pyLower t ≠ "ascii" → pyStartsWith (pyLower t) "binary_compressed" = true →
      readPCD c hdr (a :: t :: rest2) rows stream =
        (match compressedStage c stream with
         | .error e => .error e
         | .ok (d, u, rest) =>
           binaryDecode (fieldsOf hdr) (getDirective hdr "size") (getDirective hdr "type")
             (getDirective hdr "count")
             (resolveNumPoints (getDirective hdr "points") (getDirective hdr "width")
               (getDirective hdr "height")) (some d) (some u) rest)) ∧
    (pyLower t ≠ "ascii" → pyStartsWith (pyLower t) "binary_compressed" = false →
      pyStartsWith (pyLower t) "binary" = true →
      readPCD c hdr (a :: t :: rest2) rows stream =
        binaryDecode (fieldsOf hdr) (getDirective hdr "size") (getDirective hdr "type")
          (getDirective hdr "count")
          (resolveNumPoints (getDirective hdr "points") (getDirective hdr "width")
            (getDirective hdr "height")) none none stream) ∧
    (pyLower t ≠ "ascii" → pyStartsWith (pyLower t) "binary" = false →
      readPCD c hdr (a :: t :: rest2) rows stream = .error .unsupportedDataType) := by
  refine ⟨?_, ?_, ?_, ?_, ?_⟩
  · intro dl hl
    match dl with
    | [] => rfl
    | [x] => rfl
    | x :: y :: tl => simp at hl; omega
  · intro h
    simp only [readPCD, dataTypeOf]
    rw [if_pos h]
  · intro h1 h2
    simp only [readPCD, dataTypeOf]
    rw [if_neg h1, if_pos h2]
  · intro h1 h2 h3
    simp only [readPCD, dataTypeOf]
    rw [if_neg h1, if_neg (by simp [h2]), if_pos h3]
  · intro h1 h2
    have hc : ¬(pyStartsWith (pyLower t) "binary_compressed" = true) := by
      intro hcc
      rw [startsWith_binary_of_compressed _ hcc] at h2
      simp at h2
    simp only [readPCD, dataTypeOf]
    rw [if_neg h1, if_neg hc, if_neg (by simp [h2])]

/-- C9 witness: the default for an absent token and the fatal error for an
unrecognized one, at concrete inputs. -/
theorem c9_data_mode_witness :
    dataTypeOf ["data"] = "binary" ∧
    readPCD noCodecs stdHdr ["DATA", "qux"] [] [] = .error .unsupportedDataType :=
  ⟨(c9_data_mode noCodecs stdHdr [] [] "DATA" "qux" []).1 ["data"] (by decide),
   (c9_data_mode noCodecs stdHdr [] [] "DATA" "qux" []).2.2.2.2 (by decide) (by decide)⟩

/-! ### Claim C10: positional fallback on short field lists -/

/-- Header declaring the same field name twice. -/
def hdrAA : List (List String) :=
  [["FIELDS", "a", "a"], ["SIZE", "4", "4"], ["TYPE", "F", "F"]]

/-- C10 counterexample: with two fields that share one name (neither of
them x/y/z), decoding fails before the positional fallback is consulted —
`np.dtype` rejects the duplicated field name with an untyped ValueError —
so the failure is not the index-out-of-range error the claim asserts for
every such input. -/
theorem c10_counterexample :
    readPCD noCodecs hdrAA ["DATA", "binary"] [] (List.replicate 16 0) =
      .error .dupFieldName ∧ Err.dupFieldName ≠ Err.indexError :=
  ⟨by decide, by decide⟩

theorem fdiv_natCast_one (m : Nat) :
    Int.fdiv (m : Int) (1 : Int) = ((m / 1 : Nat) : Int) := by
  exact_mod_cast (Int.ofNat_fdiv m 1).symm

theorem fdiv_natCast_two (m : Nat) :
    Int.fdiv (m : Int) (2 : Int) = ((m / 2 : Nat) : Int) := by
  exact_mod_cast (Int.ofNat_fdiv m 2).symm

/-- C10 amended: for one or two distinct declared field names, none of
which is x, y or z (case-insensitively), the positional fallback indexes
columns 0, 1, 2 and decoding fails with the untyped index-out-of-range
error, whatever the payload; duplicated names instead fail earlier in
record-type construction (see the counterexample), and an empty FIELDS
list is falsy and fails with IncompleteLayout. -/
theorem c10_positional_fallback (c : CodecSet) (a b : String) (rows : List (List String))
    (stream : List Nat)
    (hax : pyLower a ≠ "x") (hay : pyLower a ≠ "y") (haz : pyLower a ≠ "z")
    (hbx : pyLower b ≠ "x") (hby : pyLower b ≠ "y") (hbz : pyLower b ≠ "z")
    (hab : a ≠ b) :
    readPCD c [["FIELDS", a], ["SIZE", "1"], ["TYPE", "U"]] ["DATA", "binary"] rows stream =
      .error .indexError ∧
    readPCD c [["FIELDS", a, b], ["SIZE", "1", "1"], ["TYPE", "U", "U"]] ["DATA", "binary"]
      rows stream = .error .indexError := by
  constructor
  · have h1 : readPCD c [["FIELDS", a], ["SIZE", "1"], ["TYPE", "U"]] ["DATA", "binary"]
        rows stream =
        binaryDecode (some [a]) (some ["1"]) (some ["U"]) none none none none stream := rfl
    have h2 : binaryDecode (some [a]) (some ["1"]) (some ["U"]) none none none none stream =
        exBind (numPointsOf none none 1 stream.length) (fun numPts =>
          exBind (truncAdjust (pyRead (numPts * 1) stream) (numPts * 1) 1) (fun raw =>
            exBind (buildDtype [a] [1] ["U"] [1]) (fun dt =>
              exBind (fromBuffer dt raw) (fun recs => extractPoints dt [a] recs)))) := rfl
    have hnp : numPointsOf none none 1 stream.length = .ok (stream.length : Int) := by
      have h0 : numPointsOf none none 1 stream.length =
          exBind (pyFloorDiv (stream.length : Int) 1) (fun k => .ok (max 0 k)) := rfl
      rw [h0]
      unfold pyFloorDiv
      rw [if_neg (by omega), fdiv_natCast_one, Nat.div_one, exBind_ok,
        max_eq_right (Int.ofNat_nonneg _)]
    have hrd : pyRead ((stream.length : Int) * 1) stream = stream := by
      unfold pyRead
      rw [if_neg (by omega)]
      rw [show ((stream.length : Int) * 1).toNat = stream.length by omega]
      exact List.take_length stream
    have htr : truncAdjust stream ((stream.length : Int) * 1) 1 = .ok stream := by
      unfold truncAdjust
      rw [if_neg (by omega)]
    have hbuild : buildDtype [a] [1] ["U"] [1] =
        .ok [{ name := a, base := .uint 1, cnt := 1 }] := rfl
    have hfb : fromBuffer [{ name := a, base := Base.uint 1, cnt := 1 }] stream =
        .ok ((List.range (stream.length / 1)).map (fun r =>
          recordAt [{ name := a, base := Base.uint 1, cnt := 1 }] stream (r * 1))) := by
      unfold fromBuffer
      rw [show itemsize [{ name := a, base := Base.uint 1, cnt := 1 }] = 1 from rfl]
      rw [if_neg (by omega), if_neg (by simp [Nat.mod_one])]
    have hsel : selectIdx (List.map pyLower [a]) = (0, 1, 2) := by
      have hx : findIdxFrom "x" [pyLower a] = none := by
        simp only [findIdxFrom]
        rw [if_neg hax]
        rfl
      have hy : findIdxFrom "y" [pyLower a] = none := by
        simp only [findIdxFrom]
        rw [if_neg hay]
        rfl
      have hz : findIdxFrom "z" [pyLower a] = none := by
        simp only [findIdxFrom]
        rw [if_neg haz]
        rfl
      unfold selectIdx
      rw [show List.map pyLower [a] = [pyLower a] from rfl, hx, hy, hz]
    have hcol0 : colOf [a] 0 = .ok 0 := by
      show (match findIdxFrom a [a] with
        | some j => (Except.ok j : Except Err Nat)
        | none => .error .valueError) = .ok 0
      rw [show findIdxFrom a [a] = some 0 from by
        simp only [findIdxFrom]
        rw [if_pos trivial]]
    have hcnt0 : cntOk [{ name := a, base := Base.uint 1, cnt := 1 }] 0 = .ok () := rfl
    have hcol1 : colOf [a] 1 = .error .indexError := rfl
    have hex : extractPoints [{ name := a, base := Base.uint 1, cnt := 1 }] [a]
        ((List.range (stream.length / 1)).map (fun r =>
          recordAt [{ name := a, base := Base.uint 1, cnt := 1 }] stream (r * 1))) =
        .error .indexError := by
      unfold extractPoints
      rw [hsel]
      simp only [hcol0, hcnt0, hcol1, exBind_ok, exBind_error]
    rw [h1, h2, hnp]
    simp only [exBind_ok]
    rw [hrd, htr]
    simp only [exBind_ok]
    rw [hbuild]
    simp only [exBind_ok]
    rw [hfb]
    simp only [exBind_ok]
    exact hex
  · have h1 : readPCD c [["FIELDS", a, b], ["SIZE", "1", "1"], ["TYPE", "U", "U"]]
        ["DATA", "binary"] rows stream =
        binaryDecode (some [a, b]) (some ["1", "1"]) (some ["U", "U"]) none none none none
          stream := rfl
    have h2 : binaryDecode (some [a, b]) (some ["1", "1"]) (some ["U", "U"]) none none none
        none stream =
        exBind (numPointsOf none none 2 stream.length) (fun numPts =>
          exBind (truncAdjust (pyRead (numPts * 2) stream) (numPts * 2) 2) (fun raw =>
            exBind (buildDtype [a, b] [1, 1] ["U", "U"] [1, 1]) (fun dt =>
              exBind (fromBuffer dt raw) (fun recs => extractPoints dt [a, b] recs)))) := rfl
    have hnp : numPointsOf none none 2 stream.length =
        .ok ((stream.length / 2 : Nat) : Int) := by
      have h0 : numPointsOf none none 2 stream.length =
          exBind (pyFloorDiv (stream.length : Int) 2) (fun k => .ok (max 0 k)) := rfl
      rw [h0]
      unfold pyFloorDiv
      rw [if_neg (by omega), fdiv_natCast_two, exBind_ok,
        max_eq_right (Int.ofNat_nonneg _)]
    have hrd : pyRead (((stream.length / 2 : Nat) : Int) * 2) stream =
        stream.take (stream.length / 2 * 2) := by
      unfold pyRead
      rw [if_neg (by omega)]
      rw [show (((stream.length / 2 : Nat) : Int) * 2).toNat = stream.length / 2 * 2 by omega]
    have hlen2 : (stream.take (stream.length / 2 * 2)).length = stream.length / 2 * 2 := by
      rw [List.length_take]
      exact min_eq_left (Nat.div_mul_le_self _ _)
    have htr : truncAdjust (stream.take (stream.length / 2 * 2))
        (((stream.length / 2 : Nat) : Int) * 2) 2 =
        .ok (stream.take (stream.length / 2 * 2)) := by
      unfold truncAdjust
      rw [if_neg (by rw [hlen2]; omega)]
    have hbuild : buildDtype [a, b] [1, 1] ["U", "U"] [1, 1] =
        .ok [{ name := a, base := .uint 1, cnt := 1 },
             { name := b, base := .uint 1, cnt := 1 }] := by
      have hbe : buildElems [a, b] [1, 1] ["U", "U"] [1, 1] =
          .ok [(a, Base.uint 1, 1), (b, Base.uint 1, 1)] := rfl
      unfold buildDtype
      rw [hbe, exBind_ok]
      unfold dtypeValidate
      rw [if_neg (by simp), if_pos (by simp [List.nodup_cons, hab])]
      rfl
    have hfb : fromBuffer [{ name := a, base := Base.uint 1, cnt := 1 },
        { name := b, base := Base.uint 1, cnt := 1 }] (stream.take (stream.length / 2 * 2)) =
        .ok ((List.range ((stream.take (stream.length / 2 * 2)).length / 2)).map (fun r =>
          recordAt [{ name := a, base := Base.uint 1, cnt := 1 },
            { name := b, base := Base.uint 1, cnt := 1 }]
            (stream.take (stream.length / 2 * 2)) (r * 2))) := by
      unfold fromBuffer
      rw [show itemsize [{ name := a, base := Base.uint 1, cnt := 1 },
        { name := b, base := Base.uint 1, cnt := 1 }] = 2 from rfl]
      rw [if_neg (by omega), if_neg (by rw [hlen2]; simp [Nat.mul_mod_left])]
    have hsel : selectIdx (List.map pyLower [a, b]) = (0, 1, 2) := by
      have hx : findIdxFrom "x" [pyLower a, pyLower b] = none := by
        simp only [findIdxFrom]
        rw [if_neg hax, if_neg hbx]
        rfl
      have hy : findIdxFrom "y" [pyLower a, pyLower b] = none := by
        simp only [findIdxFrom]
        rw [if_neg hay, if_neg hby]
        rfl
      have hz : findIdxFrom "z" [pyLower a, pyLower b] = none := by
        simp only [findIdxFrom]
        rw [if_neg haz, if_neg hbz]
        rfl
      unfold selectIdx
      rw [show List.map pyLower [a, b] = [pyLower a, pyLower b] from rfl, hx, hy, hz]
    have hcol0 : colOf [a, b] 0 = .ok 0 := by
      show (match findIdxFrom a [a, b] with
        | some j => (Except.ok j : Except Err Nat)
        | none => .error .valueError) = .ok 0
      rw [show findIdxFrom a [a, b] = some 0 from by
        simp only [findIdxFrom]
        rw [if_pos trivial]]
    have hcol1 : colOf [a, b] 1 = .ok 1 := by
      show (match findIdxFrom b [a, b] with
        | some j => (Except.ok j : Except Err Nat)
        | none => .error .valueError) = .ok 1
      rw [show findIdxFrom b [a, b] = some 1 from by
        simp only [findIdxFrom]
        rw [if_neg hab, if_pos trivial]
        rfl]
    have hcol2 : colOf [a, b] 2 = .error .indexError := rfl
    have hcnt0 : cntOk [{ name := a, base := Base.uint 1, cnt := 1 },
        { name := b, base := Base.uint 1, cnt := 1 }] 0 = .ok () := rfl
    have hcnt1 : cntOk [{ name := a, base := Base.uint 1, cnt := 1 },
        { name := b, base := Base.uint 1, cnt := 1 }] 1 = .ok () := rfl
    have hex : extractPoints [{ name := a, base := Base.uint 1, cnt := 1 },
        { name := b, base := Base.uint 1, cnt := 1 }] [a, b]
        ((List.range ((stream.take (stream.length / 2 * 2)).length / 2)).map (fun r =>
          recordAt [{ name := a, base := Base.uint 1, cnt := 1 },
            { name := b, base := Base.uint 1, cnt := 1 }]
            (stream.take (stream.length / 2 * 2)) (r * 2))) = .error .indexError := by
      unfold extractPoints
      rw [hsel]
      simp only [hcol0, hcol1, hcol2, hcnt0, hcnt1, exBind_ok, exBind_error]
    rw [h1, h2, hnp]
    simp only [exBind_ok]
    rw [hrd, htr]
    simp only [exBind_ok]
    rw [hbuild]
    simp only [exBind_ok]
    rw [hfb]
    simp only [exBind_ok]
    exact hex

/-- C10 witness: the fallback failure at concrete non-xyz field names over
a concrete well-formed payload. -/
theorem c10_positional_fallback_witness :
    readPCD noCodecs [["FIELDS", "r"], ["SIZE", "1"], ["TYPE", "U"]] ["DATA", "binary"] []
      [5, 6] = .error .indexError ∧
    readPCD noCodecs [["FIELDS", "r", "g"], ["SIZE", "1", "1"], ["TYPE", "U", "U"]]
      ["DATA", "binary"] [] [5, 6] = .error .indexError :=
  c10_positional_fallback noCodecs "r" "g" [] [5, 6] (by decide) (by decide) (by decide)
    (by decide) (by decide) (by decide) (by decide)
